import Mathlib

/-!
Verification of the openscm parameter-view core (`openscm/core/views.py`)
against its natural-language specification.

The embedding translates `views.py` directly.  The modules `parameters.py`,
`units.py`, `time.py` and `errors.py` are not part of the available source
tree; the definitions taken from them are modelled from the specification
(sections 3, 4.1, 4.2, 4.3 and 7) and are marked `Modelled from the spec:`
in their doc comments.  Scalars are rationals (`ℚ`); numpy arrays are lists
of rationals; Python exceptions are `Except`/error-option results.
-/

/-- Modelled from the spec: the error taxonomy of `openscm/errors.py`
(spec section 7).  Only the errors reachable from the embedded operations
are included; `valueError` stands for Python's built-in `ValueError`
(used here for invalid accessor paths). -/
inductive Err where
  | parameterEmptyError
  | parameterReadonlyError
  | timeseriesPointsValuesMismatchError
  | insufficientDataError
  | notImplementedError
  | valueError
deriving DecidableEq, Repr

/-- Modelled from the spec: a unit string, represented by the affine map
sending a value in this unit to a common base unit (`base = scale * v +
offset`), as computed by the external unit registry (spec section 4.2).
Dimensionality checking happens at view creation inside `parameterset.py`
(not in `views.py`) and is outside the embedded operations. -/
structure UnitSpec where
  scale : ℚ
  offset : ℚ
deriving DecidableEq, Repr

/-- Value expressed in unit `u`, converted to the base unit. -/
def UnitSpec.toBase (u : UnitSpec) (v : ℚ) : ℚ := u.scale * v + u.offset

/-- Value expressed in the base unit, converted to unit `u`. -/
def UnitSpec.fromBase (u : UnitSpec) (v : ℚ) : ℚ := (v - u.offset) / u.scale

/-- Modelled from the spec: `openscm.core.units.UnitConverter`, constructed
from a source and a target unit (spec section 4.2). -/
structure UnitConverter where
  source : UnitSpec
  target : UnitSpec
deriving DecidableEq, Repr

/-- Modelled from the spec: `UnitConverter.convert_from` converts a value
expressed in the source unit into the target unit. -/
def UnitConverter.convert_from (c : UnitConverter) (v : ℚ) : ℚ :=
  c.target.fromBase (c.source.toBase v)

/-- Modelled from the spec: `UnitConverter.convert_to` is the inverse
direction, converting a value expressed in the target unit into the
source unit. -/
def UnitConverter.convert_to (c : UnitConverter) (v : ℚ) : ℚ :=
  c.source.fromBase (c.target.toBase v)

/-- Elementwise `convert_from` on an array (numpy broadcasting). -/
def UnitConverter.convert_from_list (c : UnitConverter) (vs : List ℚ) : List ℚ :=
  vs.map c.convert_from

/-- Elementwise `convert_to` on an array (numpy broadcasting). -/
def UnitConverter.convert_to_list (c : UnitConverter) (vs : List ℚ) : List ℚ :=
  vs.map c.convert_to

/-- Modelled from the spec: `openscm.core.parameters.ParameterType`
(spec section 3). -/
inductive ParameterType where
  | scalar
  | pointTimeseries
  | averageTimeseries
  | generic
deriving DecidableEq, Repr

/-- Modelled from the spec: `openscm.core.time.InterpolationType`; only
linear interpolation is specified (spec section 4.3). -/
inductive InterpolationType where
  | linear
deriving DecidableEq, Repr

/-- Modelled from the spec: `openscm.core.time.ExtrapolationType`
(spec section 4.3): NONE fails outside the source range, CONSTANT holds
the edge value, LINEAR extends the edge slope. -/
inductive ExtrapolationType where
  | none
  | constant
  | linear
deriving DecidableEq, Repr

/-- Linear interpolation between the points `p` and `q` evaluated at `x`. -/
def lerpSeg (p q : ℚ × ℚ) (x : ℚ) : ℚ :=
  p.2 + (q.2 - p.2) * (x - p.1) / (q.1 - p.1)

/-- Piecewise-linear evaluation over a list of `(time, value)` points:
interpolates inside each bracketing segment and extends the first/last
segment's slope beyond the ends (the LINEAR edge policy). -/
def interpInner : List (ℚ × ℚ) → ℚ → ℚ
  | p :: q :: [], x => lerpSeg p q x
  | p :: q :: rest, x => if x ≤ q.1 then lerpSeg p q x else interpInner (q :: rest) x
  | [p], _ => p.2
  | [], _ => 0

/-- Modelled from the spec: evaluation of a point-convention timeseries
given by grid `pts` and values `vals` at time `x`, with linear
interpolation inside the source range (spec section 4.3); outside the
range, CONSTANT holds the edge value and LINEAR extends the edge slope
(NONE is rejected before evaluation). -/
def interpPoint (pts vals : List ℚ) (etp : ExtrapolationType) (x : ℚ) : ℚ :=
  let pv := pts.zip vals
  if etp = ExtrapolationType.constant then
    match pv.head?, pv.getLast? with
    | some p, some q =>
      if x ≤ p.1 then p.2 else if q.1 ≤ x then q.2 else interpInner pv x
    | _, _ => 0
  else interpInner pv x

/-- Modelled from the spec: point-convention conversion resamples the
piecewise-linear source curve at each target time point. -/
def convertPoint (src tgt vals : List ℚ) (etp : ExtrapolationType) : List ℚ :=
  tgt.map (interpPoint src vals etp)

/-- Integral over `[a, b]` of the piecewise-constant rate curve whose
value on the source interval `[pts[i], pts[i+1]]` is `vals[i]`; outside
the covered span the edge rate is held (conversions with NONE
extrapolation never integrate outside the span, and the spec leaves the
LINEAR edge policy for average series unspecified — section 9 — so both
non-NONE policies are modelled as constant edge extension here). -/
def integrateRate (pts vals : List ℚ) (a b : ℚ) : ℚ :=
  let segs := (pts.zip pts.tail).zip vals
  let inner := segs.foldl
    (fun acc s => acc + s.2 * max 0 (min b s.1.2 - max a s.1.1)) 0
  let before :=
    match pts.head?, vals.head? with
    | some s0, some v0 => v0 * max 0 (min b s0 - a)
    | _, _ => 0
  let after :=
    match pts.getLast?, vals.getLast? with
    | some sn, some vn => vn * max 0 (b - max a sn)
    | _, _ => 0
  inner + before + after

/-- Modelled from the spec: average-convention conversion reconstructs a
piecewise-constant rate per source interval and re-integrates it over
each target interval, dividing by the interval duration (spec
section 4.3). -/
def convertAverage (src tgt vals : List ℚ) (etp : ExtrapolationType) : List ℚ :=
  (tgt.zip tgt.tail).map (fun ab => integrateRate src vals ab.1 ab.2 / (ab.2 - ab.1))

/-- True when some target time point lies outside the span covered by the
source time points (both grids are ordered). -/
def outsideRange (src tgt : List ℚ) : Bool :=
  match src.head?, src.getLast?, tgt.head?, tgt.getLast? with
  | some s0, some s1, some t0, some t1 => decide (t0 < s0 ∨ s1 < t1)
  | _, _, _, _ => false

/-- Modelled from the spec: `openscm.core.time.TimeseriesConverter`,
constructed from a source time-point grid, a target grid, a timeseries
convention, an interpolation policy and an extrapolation policy (spec
section 4.3). -/
structure TimeseriesConverter where
  source : List ℚ
  target : List ℚ
  timeseries_type : ParameterType
  interpolation_type : InterpolationType
  extrapolation_type : ExtrapolationType
deriving DecidableEq, Repr

/-- Modelled from the spec: number of target time points, used by callers
sizing output buffers (spec section 4.3); for the average convention the
last grid point is the trailing interval boundary, so one fewer value is
stored. -/
def TimeseriesConverter.target_length (c : TimeseriesConverter) : ℕ :=
  match c.timeseries_type with
  | ParameterType.averageTimeseries => c.target.length - 1
  | _ => c.target.length

/-- Modelled from the spec: the directed conversion `_convert(values, src,
tgt)`.  It fails with `InsufficientDataError` when the values array has
fewer than three elements — the threshold is fixed by the repository's own
test `tests/unit/test_timeseries_converter.py::test_short_data`, which
expects the error for arrays of lengths 0, 1 and 2 under every
source/target/type combination — or when a target point lies outside the
source span under NONE extrapolation (message `Target time points are
outside the source time points`, see `test_none_extrapolation_error`).
Otherwise it resamples per the timeseries convention. -/
def TimeseriesConverter.convert (c : TimeseriesConverter) (values src tgt : List ℚ) :
    Except Err (List ℚ) :=
  if values.length < 3 then Except.error Err.insufficientDataError
  else if c.extrapolation_type = ExtrapolationType.none ∧ outsideRange src tgt then
    Except.error Err.insufficientDataError
  else
    Except.ok
      (match c.timeseries_type with
       | ParameterType.averageTimeseries => convertAverage src tgt values c.extrapolation_type
       | _ => convertPoint src tgt values c.extrapolation_type)

/-- Modelled from the spec: maps source-grid values to target-grid values. -/
def TimeseriesConverter.convert_from (c : TimeseriesConverter) (values : List ℚ) :
    Except Err (List ℚ) :=
  c.convert values c.source c.target

/-- Modelled from the spec: maps target-grid values back to source-grid
values (the direction used when a writable view writes back into the
parameter). -/
def TimeseriesConverter.convert_to (c : TimeseriesConverter) (values : List ℚ) :
    Except Err (List ℚ) :=
  c.convert values c.target c.source

/-- Data buffer stored in a parameter node: a scalar, a timeseries array,
or a generic (opaque) value. -/
inductive PData where
  | scalar (value : ℚ)
  | timeseries (values : List ℚ)
  | generic (value : String)
deriving DecidableEq, Repr

/-- Modelled from the spec: `openscm.core.parameters._Parameter` (spec
section 3) — the node of the parameter tree, with its native unit, its
time grid (timeseries parameters only), the stored data buffer, the
`has_been_written_to` flag, the mutation `version` counter and its child
parameters.  The name/region bookkeeping of `parameterset.py` is not
needed by any embedded operation and is omitted. -/
inductive Param where
  | mk (unit : UnitSpec) (time_points : List ℚ) (data : Option PData)
      (has_been_written_to : Bool) (version : ℕ) (children : List Param)

/-- Native unit of the parameter (`parameter.info.unit`). -/
def Param.unit : Param → UnitSpec
  | .mk u _ _ _ _ _ => u

/-- Time grid of the parameter (`parameter.time_points`). -/
def Param.time_points : Param → List ℚ
  | .mk _ tp _ _ _ _ => tp

/-- Stored data buffer (`parameter.data`), `none` before any write. -/
def Param.data : Param → Option PData
  | .mk _ _ d _ _ _ => d

/-- The `has_been_written_to` flag. -/
def Param.has_been_written_to : Param → Bool
  | .mk _ _ _ w _ _ => w

/-- The mutation version counter. -/
def Param.version : Param → ℕ
  | .mk _ _ _ _ v _ => v

/-- Child parameters (`parameter.children.values()`, in order). -/
def Param.children : Param → List Param
  | .mk _ _ _ _ _ cs => cs

/-- Replace the version counter, keeping every other field. -/
def Param.withVersion (n : ℕ) : Param → Param
  | .mk u tp d w _ cs => .mk u tp d w n cs

/-- Leaf descendants of a parameter node, depth-first and in child order —
the nodes the recursive `get_data_views_for_children_or_parameter` in
`views.py` builds its flat list of leaf data views from. -/
def Param.leaves : Param → List Param
  | .mk u tp d w v cs =>
    if cs.isEmpty then [.mk u tp d w v cs]
    else (cs.attach.map (fun c => c.1.leaves)).flatten
termination_by t => sizeOf t
decreasing_by
  have h := List.sizeOf_lt_of_mem c.2
  simp only [Param.mk.sizeOf_spec]
  omega

/-- Modelled from the spec: assignment to `_Parameter.data`.  The spec
states that a writable view's setter "converts the incoming value to the
Parameter's native unit and calls `attempt_write`" (section 4.4) while
`views.py` only assigns `self._parameter.data`, so the data property of
the missing `parameters.py` performs the `attempt_write` transition of
spec section 4.1: it fails with `ParameterReadonlyError` when the node
has children, and otherwise stores the buffer, marks
`has_been_written_to` and increments `version`. -/
def Param.setData (d : PData) : Param → Except Err Param
  | .mk u tp _ w ver cs =>
    if cs.isEmpty then Except.ok (.mk u tp (some d) true (ver + 1) cs)
    else Except.error Err.parameterReadonlyError

/-- Modelled from the spec: a write reaching the node at `path` (indices
into the successive child lists).  A successful descendant write also
increments each ancestor's version counter, so that "all views over that
Parameter (and its ancestors) observe the new version on next read"
(spec section 8); the `has_been_written_to` flags of the ancestors are
not touched (only `attempt_read` propagates markers to ancestors, spec
section 4.1). -/
def Param.writeAt (f : Param → Except Err Param) : List ℕ → Param → Except Err Param
  | [], p => f p
  | i :: rest, .mk u tp d w ver cs =>
    match cs.get? i with
    | none => Except.error Err.valueError
    | some c => (Param.writeAt f rest c).map (fun c' => .mk u tp d w (ver + 1) (cs.set i c'))

/-- Node at `path` below `p`, if the path exists. -/
def Param.nodeAt : List ℕ → Param → Option Param
  | [], p => some p
  | i :: rest, p => (p.children.get? i).bind (Param.nodeAt rest)

/-- The scalar buffer of the node, as the unchecked `cast(float,
self._parameter.data)` in `views.py` reads it; type consistency is
enforced at view creation by `parameterset.py` (outside the embedded
operations), so the default is never exercised by a well-typed store. -/
def Param.dataScalar (p : Param) : ℚ :=
  match p.data with
  | some (PData.scalar v) => v
  | _ => 0

/-- The timeseries buffer of the node, as the unchecked
`cast(Sequence[float], self._parameter.data)` in `views.py` reads it. -/
def Param.dataSeries (p : Param) : List ℚ :=
  match p.data with
  | some (PData.timeseries vs) => vs
  | _ => []

/-- `ParameterView.empty` (views.py lines 143-148): a parameter is empty
iff it has not yet been written to. -/
def ParameterView.empty (p : Param) : Bool :=
  !p.has_been_written_to

/-- Value of a `ScalarView` over a leaf parameter (the no-children branch
of `ScalarView.value`, views.py lines 213-218): raises
`ParameterEmptyError` when never written, else converts the stored
scalar from the parameter's native unit into the view's unit. -/
def ScalarView.leafValue (target : UnitSpec) (l : Param) : Except Err ℚ :=
  if ParameterView.empty l then Except.error Err.parameterEmptyError
  else Except.ok ((UnitConverter.mk l.unit target).convert_from l.dataScalar)

/-- `ScalarView.value` (views.py lines 194-218): when the underlying
parameter has children the value is the sum of the values of the flat
list of leaf data views built at view construction (each converting its
leaf's native unit into the view's unit, summed left to right with the
first failing leaf aborting the read); otherwise the leaf read above. -/
def ScalarView.value (target : UnitSpec) (p : Param) : Except Err ℚ :=
  if p.children.isEmpty then ScalarView.leafValue target p
  else (p.leaves.mapM (ScalarView.leafValue target)).map (fun l => l.sum)

/-- `WritableScalarView.value` setter (views.py lines 247-257):
`self._parameter.data = self._unit_converter.convert_to(v)` where the
unit converter was built as `UnitConverter(parameter.info.unit, unit)`,
so `v` is converted from the view's unit into the parameter's native
unit and the assignment performs the `attempt_write` transition. -/
def WritableScalarView.setValue (target : UnitSpec) (v : ℚ) (p : Param) : Except Err Param :=
  p.setData (PData.scalar ((UnitConverter.mk p.unit target).convert_to v))

/-- `GenericView.value` getter (views.py lines 466-484): raises
`ParameterEmptyError` when never written, else returns the stored data
unconverted. -/
def GenericView.value (p : Param) : Except Err PData :=
  if ParameterView.empty p then Except.error Err.parameterEmptyError
  else Except.ok (p.data.getD (PData.generic ""))

/-- `WritableGenericView.value` setter (views.py lines 509-519):
`self._parameter.data = v`, with the assignment performing the
`attempt_write` transition. -/
def WritableGenericView.setValue (v : PData) (p : Param) : Except Err Param :=
  p.setData v

/-- View-local state of a `TimeseriesView` (views.py lines 260-315): the
unit and timeseries converters fixed at construction, the cached
converted array `_data` (`none` until first use, shared with the
`_Timeseries` wrapper) and the locally held version number `_version`.
In Python `_version` is first assigned during `_read`; it is modelled as
a number that is never consulted while the cache is `none`, starting at
0. -/
structure TSViewState where
  unit_converter : UnitConverter
  timeseries_converter : TimeseriesConverter
  cacheData : Option (List ℚ)
  cachedVersion : ℕ
deriving DecidableEq, Repr

/-- A freshly constructed timeseries view: `self._data = None`,
`self._timeseries = None`. -/
def TimeseriesView.initView (uc : UnitConverter) (tc : TimeseriesConverter) : TSViewState :=
  ⟨uc, tc, none, 0⟩

/-- Values contributed by one leaf data view of an aggregating
`TimeseriesView` (views.py lines 317-342): the leaf view converts the
leaf's native unit and the leaf's own time grid into the parent view's
target unit and target grid. -/
def TimeseriesView.leafValues (vs : TSViewState) (l : Param) : Except Err (List ℚ) :=
  if ParameterView.empty l then Except.error Err.parameterEmptyError
  else
    (TimeseriesConverter.mk l.time_points vs.timeseries_converter.target
      vs.timeseries_converter.timeseries_type vs.timeseries_converter.interpolation_type
      vs.timeseries_converter.extrapolation_type).convert_from
      ((UnitConverter.mk l.unit vs.unit_converter.target).convert_from_list l.dataSeries)

/-- Elementwise sum of equally long arrays (`np.sum` over the generator of
child view values in `_get_values`). -/
def sumArrays : List (List ℚ) → List ℚ
  | [] => []
  | x :: xs => xs.foldl (fun a b => List.zipWith (fun p q => p + q) a b) x

/-- `TimeseriesView._get_values` (views.py lines 354-369): with children,
the elementwise sum of the child leaf data views' values (each leaf read
fresh through its converters — the summation path of `views.py` goes
through the leaf views' read machinery, embedded here as the fresh leaf
read); without children, `ParameterEmptyError` when never written, else
the parameter's buffer converted by unit and then by time grid. -/
def TimeseriesView.get_values (vs : TSViewState) (p : Param) : Except Err (List ℚ) :=
  if p.children.isEmpty then
    if ParameterView.empty p then Except.error Err.parameterEmptyError
    else vs.timeseries_converter.convert_from
      (vs.unit_converter.convert_from_list p.dataSeries)
  else (p.leaves.mapM (TimeseriesView.leafValues vs)).map sumArrays

/-- `TimeseriesView._read` (views.py lines 344-349) together with the
delivery of `self._data`: compute and cache the converted array when no
cache exists; recompute (`np.copyto` into the shared buffer) when the
locally held version differs from the parameter's current version;
otherwise reuse the cache; finally set `_version` to the parameter's
version.  An exception raised by `_get_values` propagates before any
assignment, leaving the view state unchanged. -/
def TimeseriesView.read (p : Param) (vs : TSViewState) :
    TSViewState × Except Err (List ℚ) :=
  match vs.cacheData with
  | none =>
    match TimeseriesView.get_values vs p with
    | Except.error e => (vs, Except.error e)
    | Except.ok d => ({ vs with cacheData := some d, cachedVersion := p.version }, Except.ok d)
  | some c =>
    if vs.cachedVersion ≠ p.version then
      match TimeseriesView.get_values vs p with
      | Except.error e => (vs, Except.error e)
      | Except.ok d => ({ vs with cacheData := some d, cachedVersion := p.version }, Except.ok d)
    else ({ vs with cachedVersion := p.version }, Except.ok c)

/-- Item assignment through the `_Timeseries` wrapper of a read-only
`TimeseriesView` (`_Timeseries.__setitem__`, views.py lines 66-68, and
`TimeseriesView._write`, views.py lines 351-352): the shared `_ndarray`
buffer (the view's `_data`) is mutated first, then `__write__` calls the
read-only view's `_write`, which raises `NotImplementedError`; the
parameter is never touched.  The `none` branch is unreachable in Python
(a `_Timeseries` only exists once `_data` does) and mutates nothing. -/
def TimeseriesView.setItem (i : ℕ) (x : ℚ) (p : Param) (vs : TSViewState) :
    (Param × TSViewState) × Option Err :=
  match vs.cacheData with
  | some c => ((p, { vs with cacheData := some (c.set i x) }), some Err.notImplementedError)
  | none => ((p, vs), some Err.notImplementedError)

/-- `WritableTimeseriesView._write` (views.py lines 408-413):
`self._parameter.data = tsc.convert_to(uc.convert_to(self._data))` —
unit-convert the cached array back to the native unit, time-convert it
back onto the parameter's grid, store it (the assignment performing the
`attempt_write` transition), then `self._parameter.version += 1` and
`self._version = self._parameter.version`.  An exception from the
conversion or the store propagates, leaving the parameter unchanged. -/
def WritableTimeseriesView.write (p : Param) (vs : TSViewState) :
    (Param × TSViewState) × Option Err :=
  match vs.timeseries_converter.convert_to
      (vs.unit_converter.convert_to_list (vs.cacheData.getD [])) with
  | Except.error e => ((p, vs), some e)
  | Except.ok w =>
    match p.setData (PData.timeseries w) with
    | Except.error e => ((p, vs), some e)
    | Except.ok p1 =>
      let p2 := p1.withVersion (p1.version + 1)
      ((p2, { vs with cachedVersion := p2.version }), none)

/-- `WritableTimeseriesView.values` setter (views.py lines 436-458):
raises `TimeseriesPointsValuesMismatchError` when the length of the
assigned sequence differs from the converter's `target_length`, before
anything is mutated; otherwise stores the raw values into the view's
buffer (creating or overwriting `_data`) and calls `_write`. -/
def WritableTimeseriesView.setValues (v : List ℚ) (p : Param) (vs : TSViewState) :
    (Param × TSViewState) × Option Err :=
  if v.length ≠ vs.timeseries_converter.target_length then
    ((p, vs), some Err.timeseriesPointsValuesMismatchError)
  else WritableTimeseriesView.write p { vs with cacheData := some v }

/-- States of one timeseries view over one (leaf) parameter reachable by
interleaving view creation, successful writes to the parameter and reads
through the view. -/
inductive TSReach (uc : UnitConverter) (tc : TimeseriesConverter) :
    Param → TSViewState → Prop where
  | init (p : Param) (h : p.children = []) : TSReach uc tc p (TimeseriesView.initView uc tc)
  | write (p : Param) (vs : TSViewState) (d : PData) (p' : Param) :
      TSReach uc tc p vs → Param.setData d p = Except.ok p' → TSReach uc tc p' vs
  | read (p : Param) (vs : TSViewState) :
      TSReach uc tc p vs → TSReach uc tc p ((TimeseriesView.read p vs).1)

/-- Sample identity unit used by concrete witnesses. -/
def sampleUnit : UnitSpec := ⟨1, 0⟩

/-- Sample never-written leaf parameter. -/
def sampleLeaf : Param := Param.mk sampleUnit [0, 1, 2] none false 0 []

/-- Sample written leaf parameter holding a timeseries buffer. -/
def sampleLeafTS : Param :=
  Param.mk sampleUnit [0, 1, 2] (some (PData.timeseries [1, 2, 3])) true 1 []

/-- Sample aggregate parameter (one child). -/
def sampleAgg : Param := Param.mk sampleUnit [] none false 0 [sampleLeaf]

/-- Sample point-convention timeseries converter on matching grids. -/
def sampleConv : TimeseriesConverter :=
  ⟨[0, 1, 2], [0, 1, 2], ParameterType.pointTimeseries, InterpolationType.linear,
    ExtrapolationType.constant⟩

/-- Sample identity unit converter. -/
def sampleUC : UnitConverter := ⟨sampleUnit, sampleUnit⟩

lemma Param.setData_ok {p p' : Param} {d : PData} (h : p.setData d = Except.ok p') :
    p.children = [] ∧
      p' = Param.mk p.unit p.time_points (some d) true (p.version + 1) p.children := by
  cases p with
  | mk u tp d0 w ver cs =>
    simp only [Param.setData, Param.children, Param.unit, Param.time_points, Param.version] at *
    by_cases hcs : cs.isEmpty
    · simp only [hcs, if_true] at h
      cases h
      exact ⟨List.isEmpty_iff.mp hcs, rfl⟩
    · simp [hcs] at h

lemma Param.setData_of_leaf {p : Param} {d : PData} (h : p.children = []) :
    p.setData d =
      Except.ok (Param.mk p.unit p.time_points (some d) true (p.version + 1) p.children) := by
  cases p with
  | mk u tp d0 w ver cs =>
    simp only [Param.children] at h
    subst h
    simp [Param.setData, Param.unit, Param.time_points, Param.version, Param.children]

lemma Param.setData_of_children {p : Param} {d : PData} (h : p.children ≠ []) :
    p.setData d = Except.error Err.parameterReadonlyError := by
  cases p with
  | mk u tp d0 w ver cs =>
    simp only [Param.children] at h
    simp [Param.setData, List.isEmpty_iff, h]

/-- C1: for every scalar parameter node and writable scalar view over it,
assigning a value `v` through the view converts `v` into the parameter's
native unit and performs `attempt_write` on the node: when the node has
children the assignment fails with `ParameterReadonlyError` and nothing
is stored; when it has none the converted value is stored with the write
marker set and the version incremented. -/
theorem c1_writable_scalar_write (p : Param) (u : UnitSpec) (v : ℚ) :
    (p.children ≠ [] →
      WritableScalarView.setValue u v p = Except.error Err.parameterReadonlyError) ∧
    (p.children = [] →
      WritableScalarView.setValue u v p =
        Except.ok (Param.mk p.unit p.time_points
          (some (PData.scalar ((UnitConverter.mk p.unit u).convert_to v))) true
          (p.version + 1) p.children)) := by
  constructor
  · intro h
    exact Param.setData_of_children h
  · intro h
    exact Param.setData_of_leaf h

/-- C1 witness: at concrete inputs, the write to a one-child aggregate is
rejected and the write to a leaf stores the converted value. -/
theorem c1_witness :
    sampleAgg.children ≠ [] ∧
    WritableScalarView.setValue sampleUnit 5 sampleAgg =
      Except.error Err.parameterReadonlyError ∧
    sampleLeaf.children = [] ∧
    (∃ q, WritableScalarView.setValue sampleUnit 5 sampleLeaf = Except.ok q ∧
      q.data = some (PData.scalar 5) ∧ q.has_been_written_to = true ∧ q.version = 1) := by
  refine ⟨by simp [sampleAgg, Param.children],
    (c1_writable_scalar_write sampleAgg sampleUnit 5).1 (by simp [sampleAgg, Param.children]),
    by simp [sampleLeaf, Param.children], ?_⟩
  refine ⟨_, (c1_writable_scalar_write sampleLeaf sampleUnit 5).2
    (by simp [sampleLeaf, Param.children]), ?_, rfl, rfl⟩
  simp [Param.data, Param.unit, sampleLeaf, sampleUnit, UnitConverter.convert_to,
    UnitSpec.toBase, UnitSpec.fromBase]

lemma Param.withVersion_version (p : Param) (n : ℕ) : (p.withVersion n).version = n := by
  cases p; rfl

lemma WritableTimeseriesView.write_ok {p p' : Param} {vs vs' : TSViewState}
    (h : WritableTimeseriesView.write p vs = ((p', vs'), none)) :
    p.version < p'.version ∧ p'.has_been_written_to = true := by
  unfold WritableTimeseriesView.write at h
  split at h
  · simp at h
  · split at h
    · simp at h
    · next p1 hset =>
        simp only [Prod.mk.injEq] at h
        obtain ⟨⟨hp', -⟩, -⟩ := h
        obtain ⟨-, hp1⟩ := Param.setData_ok hset
        subst hp'
        subst hp1
        cases p with
        | mk u tp d w0 ver cs =>
          simp [Param.withVersion, Param.version, Param.has_been_written_to]
          omega

/-- C2: every successful write through a writable scalar, generic or
timeseries view strictly increments the written parameter's version
counter (so the version after the second of two successive successful
writes is strictly greater than after the first), and a timeseries view
over the parameter holds the parameter's current version after its next
successful read. -/
theorem c2_version_monotonic :
    (∀ (p p' : Param) (u : UnitSpec) (v : ℚ),
      WritableScalarView.setValue u v p = Except.ok p' → p.version < p'.version) ∧
    (∀ (p p' : Param) (d : PData),
      WritableGenericView.setValue d p = Except.ok p' → p.version < p'.version) ∧
    (∀ (p p' : Param) (vs vs' : TSViewState) (v : List ℚ),
      WritableTimeseriesView.setValues v p vs = ((p', vs'), none) → p.version < p'.version) ∧
    (∀ (p : Param) (vs : TSViewState) (d : List ℚ),
      (TimeseriesView.read p vs).2 = Except.ok d →
        ((TimeseriesView.read p vs).1).cachedVersion = p.version) := by
  refine ⟨?_, ?_, ?_, ?_⟩
  · intro p p' u v h
    obtain ⟨-, hp'⟩ := Param.setData_ok h
    subst hp'
    simp [Param.version]
  · intro p p' d h
    obtain ⟨-, hp'⟩ := Param.setData_ok h
    subst hp'
    simp [Param.version]
  · intro p p' vs vs' v h
    unfold WritableTimeseriesView.setValues at h
    by_cases hlen : v.length ≠ vs.timeseries_converter.target_length
    · simp [hlen] at h
    · simp only [hlen, if_false] at h
      exact (WritableTimeseriesView.write_ok h).1
  · intro p vs d h
    unfold TimeseriesView.read at h ⊢
    cases hc : vs.cacheData with
    | none =>
      simp only [hc] at h ⊢
      cases hg : TimeseriesView.get_values vs p with
      | error e => simp [hg] at h
      | ok d0 => simp [hg]
    | some c =>
      simp only [hc] at h ⊢
      by_cases hv : vs.cachedVersion ≠ p.version
      · rw [if_pos hv] at h ⊢
        cases hg : TimeseriesView.get_values vs p with
        | error e => simp [hg] at h
        | ok d0 => simp [hg]
      · rw [if_neg hv]

/-- C2 witness: at concrete inputs, a leaf scalar write bumps the version
from 0 to 1, a second write bumps it to 2, a generic write and a
timeseries write are strictly increasing, and a read through a fresh
timeseries view picks up the parameter's current version. -/
theorem c2_witness :
    (∃ q, WritableScalarView.setValue sampleUnit 3 sampleLeaf = Except.ok q ∧
      sampleLeaf.version < q.version ∧
      ∃ q2, WritableScalarView.setValue sampleUnit 4 q = Except.ok q2 ∧
        q.version < q2.version) ∧
    (∃ g, WritableGenericView.setValue (PData.generic "on") sampleLeaf = Except.ok g ∧
      sampleLeaf.version < g.version) ∧
    (∃ p' vs', WritableTimeseriesView.setValues [7, 8, 9] sampleLeaf
        (TimeseriesView.initView sampleUC sampleConv) = ((p', vs'), none) ∧
      sampleLeaf.version < p'.version) ∧
    (∃ d, (TimeseriesView.read sampleLeafTS
        (TimeseriesView.initView sampleUC sampleConv)).2 = Except.ok d) ∧
    ((TimeseriesView.read sampleLeafTS
        (TimeseriesView.initView sampleUC sampleConv)).1).cachedVersion =
      sampleLeafTS.version := by
  have h1 : WritableScalarView.setValue sampleUnit 3 sampleLeaf =
      Except.ok (Param.mk sampleUnit [0, 1, 2] (some (PData.scalar 3)) true 1 []) := by
    norm_num [WritableScalarView.setValue, sampleLeaf, sampleUnit, Param.setData,
      Param.unit, UnitConverter.convert_to, UnitSpec.toBase, UnitSpec.fromBase]
  have h2 : WritableScalarView.setValue sampleUnit 4
      (Param.mk sampleUnit [0, 1, 2] (some (PData.scalar 3)) true 1 []) =
      Except.ok (Param.mk sampleUnit [0, 1, 2] (some (PData.scalar 4)) true 2 []) := by
    norm_num [WritableScalarView.setValue, sampleUnit, Param.setData,
      Param.unit, UnitConverter.convert_to, UnitSpec.toBase, UnitSpec.fromBase]
  have h3 : WritableGenericView.setValue (PData.generic "on") sampleLeaf =
      Except.ok (Param.mk sampleUnit [0, 1, 2] (some (PData.generic "on")) true 1 []) := by
    norm_num [WritableGenericView.setValue, sampleLeaf, Param.setData]
  have h4 : WritableTimeseriesView.setValues [7, 8, 9] sampleLeaf
      (TimeseriesView.initView sampleUC sampleConv) =
      ((Param.mk sampleUnit [0, 1, 2] (some (PData.timeseries [7, 8, 9])) true 2 [],
        ⟨sampleUC, sampleConv, some [7, 8, 9], 2⟩), none) := by
    norm_num [WritableTimeseriesView.setValues, WritableTimeseriesView.write,
      TimeseriesView.initView, sampleLeaf, sampleConv, sampleUC, sampleUnit,
      TimeseriesConverter.target_length, TimeseriesConverter.convert_to,
      TimeseriesConverter.convert, outsideRange, convertPoint, interpPoint, interpInner,
      lerpSeg, UnitConverter.convert_to_list, UnitConverter.convert_to, UnitSpec.toBase,
      UnitSpec.fromBase, Param.setData, Param.withVersion, Param.version]
  have h5 : (TimeseriesView.read sampleLeafTS
      (TimeseriesView.initView sampleUC sampleConv)).2 = Except.ok [1, 2, 3] := by
    norm_num [TimeseriesView.read, TimeseriesView.get_values, TimeseriesView.initView,
      sampleLeafTS, sampleConv, sampleUC, sampleUnit, ParameterView.empty,
      Param.has_been_written_to, Param.children, Param.dataSeries, Param.data,
      Param.version, TimeseriesConverter.convert_from, TimeseriesConverter.convert,
      outsideRange, convertPoint, interpPoint, interpInner, lerpSeg,
      UnitConverter.convert_from_list, UnitConverter.convert_from, UnitSpec.toBase,
      UnitSpec.fromBase]
  refine ⟨⟨_, h1, c2_version_monotonic.1 _ _ _ _ h1, _, h2,
      c2_version_monotonic.1 _ _ _ _ h2⟩,
    ⟨_, h3, c2_version_monotonic.2.1 _ _ _ h3⟩,
    ⟨_, _, h4, c2_version_monotonic.2.2.1 _ _ _ _ _ h4⟩,
    ⟨_, h5⟩, c2_version_monotonic.2.2.2 _ _ _ h5⟩

/-- The cache-coherence invariant of a timeseries view: the converters are
the ones fixed at construction, the parameter is a leaf, and whenever a
cached array is held with a version number equal to the parameter's
current version, the cache equals the freshly recomputed values. -/
def TSInv (uc : UnitConverter) (tc : TimeseriesConverter) (p : Param) (vs : TSViewState) :
    Prop :=
  vs.unit_converter = uc ∧ vs.timeseries_converter = tc ∧ p.children = [] ∧
  ∀ c, vs.cacheData = some c →
    vs.cachedVersion ≤ p.version ∧
    (vs.cachedVersion = p.version → TimeseriesView.get_values vs p = Except.ok c)

lemma TimeseriesView.get_values_congr {vs vs' : TSViewState} (p : Param)
    (h1 : vs'.unit_converter = vs.unit_converter)
    (h2 : vs'.timeseries_converter = vs.timeseries_converter) :
    TimeseriesView.get_values vs' p = TimeseriesView.get_values vs p := by
  unfold TimeseriesView.get_values TimeseriesView.leafValues
  rw [h1, h2]

lemma TimeseriesView.get_values_update (vs : TSViewState) (p : Param)
    (cd : Option (List ℚ)) (cv : ℕ) :
    TimeseriesView.get_values
      { unit_converter := vs.unit_converter, timeseries_converter := vs.timeseries_converter,
        cacheData := cd, cachedVersion := cv } p = TimeseriesView.get_values vs p :=
  TimeseriesView.get_values_congr p rfl rfl

lemma TSReach.inv {uc : UnitConverter} {tc : TimeseriesConverter} {p : Param}
    {vs : TSViewState} (h : TSReach uc tc p vs) : TSInv uc tc p vs := by
  induction h with
  | init p hc => exact ⟨rfl, rfl, hc, fun c hc' => by simp [TimeseriesView.initView] at hc'⟩
  | write p vs d p' hr hset ih =>
    obtain ⟨huc, htc, hch, hcache⟩ := ih
    obtain ⟨-, hp'⟩ := Param.setData_ok hset
    refine ⟨huc, htc, ?_, ?_⟩
    · subst hp'; exact hch
    · intro c hc
      obtain ⟨hle, -⟩ := hcache c hc
      have hversion : p'.version = p.version + 1 := by subst hp'; simp [Param.version]
      constructor
      · omega
      · intro heq; omega
  | read p vs hr ih =>
    obtain ⟨huc, htc, hch, hcache⟩ := ih
    unfold TimeseriesView.read
    cases hc : vs.cacheData with
    | none =>
      cases hg : TimeseriesView.get_values vs p with
      | error e => simpa [hc, hg] using ⟨huc, htc, hch, hcache⟩
      | ok d =>
        simp only [hc, hg]
        refine ⟨huc, htc, hch, fun c hc' => ?_⟩
        simp only [Option.some.injEq] at hc'
        subst hc'
        refine ⟨le_refl _, fun _ => ?_⟩
        rw [TimeseriesView.get_values_update]
        exact hg
    | some c0 =>
      by_cases hv : vs.cachedVersion ≠ p.version
      · cases hg : TimeseriesView.get_values vs p with
        | error e => simpa [hc, hg, if_pos hv] using ⟨huc, htc, hch, hcache⟩
        | ok d =>
          simp only [hc, hg, if_pos hv]
          refine ⟨huc, htc, hch, fun c hc' => ?_⟩
          simp only [Option.some.injEq] at hc'
          subst hc'
          refine ⟨le_refl _, fun _ => ?_⟩
          rw [TimeseriesView.get_values_update]
          exact hg
      · simp only [hc, if_neg hv]
        refine ⟨huc, htc, hch, fun c hc' => ?_⟩
        simp only [Option.some.injEq] at hc'
        subst hc'
        refine ⟨le_refl _, fun _ => ?_⟩
        obtain ⟨-, hcoherent⟩ := hcache c0 hc
        rw [TimeseriesView.get_values_update]
        exact hcoherent (not_not.mp hv)

/-- C4: in every state of a timeseries view reachable by interleaving
successful writes to the underlying (leaf) parameter with reads through
the view, reading the view's values returns exactly the freshly
recomputed unit- and time-converted data of the parameter's current
contents; the cached array is reused (returned as is, with only the
version number synchronised) precisely when the locally held version
equals the parameter's current version, and is recomputed on any
mismatch. -/
theorem c4_timeseries_view_cache (uc : UnitConverter) (tc : TimeseriesConverter)
    (p : Param) (vs : TSViewState) (h : TSReach uc tc p vs) :
    (TimeseriesView.read p vs).2 = TimeseriesView.get_values vs p ∧
    (∀ c, vs.cacheData = some c → vs.cachedVersion = p.version →
      (TimeseriesView.read p vs).2 = Except.ok c ∧
      (TimeseriesView.read p vs).1 = { vs with cachedVersion := p.version }) ∧
    (∀ c, vs.cacheData = some c → vs.cachedVersion ≠ p.version →
      (TimeseriesView.read p vs).2 = TimeseriesView.get_values vs p) := by
  obtain ⟨-, -, -, hcache⟩ := h.inv
  refine ⟨?_, ?_, ?_⟩
  · unfold TimeseriesView.read
    cases hc : vs.cacheData with
    | none =>
      cases hg : TimeseriesView.get_values vs p with
      | error e => simp [hc, hg]
      | ok d => simp [hc, hg]
    | some c0 =>
      by_cases hv : vs.cachedVersion ≠ p.version
      · cases hg : TimeseriesView.get_values vs p with
        | error e => simp [hc, hg, if_pos hv]
        | ok d => simp [hc, hg, if_pos hv]
      · obtain ⟨-, hcoherent⟩ := hcache c0 hc
        simp only [hc, if_neg hv]
        exact (hcoherent (not_not.mp hv)).symm
  · intro c hc hv
    unfold TimeseriesView.read
    simp [hc, hv]
  · intro c hc hv
    unfold TimeseriesView.read
    cases hg : TimeseriesView.get_values vs p with
    | error e => simp [hc, hg, if_pos hv]
    | ok d => simp [hc, hg, if_pos hv]

/-- Sample rewritten leaf parameter (the state of `sampleLeafTS` after a
further successful write of `[4, 5, 6]`). -/
def sampleLeafTS2 : Param :=
  Param.mk sampleUnit [0, 1, 2] (some (PData.timeseries [4, 5, 6])) true 2 []

/-- Sample view state holding a cached array for version 1. -/
def sampleVS1 : TSViewState := ⟨sampleUC, sampleConv, some [1, 2, 3], 1⟩

/-- C4 witness: after creating a view over a leaf parameter, reading it,
and writing new data to the parameter, the state is reachable, the next
read equals the fresh recomputation, and it concretely returns the
newly written data rather than the stale cache. -/
theorem c4_witness :
    (TimeseriesView.read sampleLeafTS2 sampleVS1).2 =
      TimeseriesView.get_values sampleVS1 sampleLeafTS2 ∧
    (TimeseriesView.read sampleLeafTS2 sampleVS1).2 = Except.ok [4, 5, 6] ∧
    sampleVS1.cacheData = some [1, 2, 3] := by
  have hvs : (TimeseriesView.read sampleLeafTS
      (TimeseriesView.initView sampleUC sampleConv)).1 = sampleVS1 := by
    norm_num [TimeseriesView.read, TimeseriesView.get_values, TimeseriesView.initView,
      sampleLeafTS, sampleConv, sampleUC, sampleUnit, sampleVS1, ParameterView.empty,
      Param.has_been_written_to, Param.children, Param.dataSeries, Param.data,
      Param.version, TimeseriesConverter.convert_from, TimeseriesConverter.convert,
      outsideRange, convertPoint, interpPoint, interpInner, lerpSeg,
      UnitConverter.convert_from_list, UnitConverter.convert_from, UnitSpec.toBase,
      UnitSpec.fromBase]
  have hp : Param.setData (PData.timeseries [4, 5, 6]) sampleLeafTS =
      Except.ok sampleLeafTS2 := by
    norm_num [Param.setData, sampleLeafTS, sampleLeafTS2]
  have hreach : TSReach sampleUC sampleConv sampleLeafTS2 sampleVS1 := by
    have r2 := TSReach.read sampleLeafTS (TimeseriesView.initView sampleUC sampleConv)
      (TSReach.init sampleLeafTS rfl)
    rw [hvs] at r2
    exact TSReach.write sampleLeafTS sampleVS1 (PData.timeseries [4, 5, 6])
      sampleLeafTS2 r2 hp
  refine ⟨(c4_timeseries_view_cache sampleUC sampleConv sampleLeafTS2 sampleVS1 hreach).1,
    ?_, rfl⟩
  norm_num [TimeseriesView.read, TimeseriesView.get_values, sampleLeafTS2, sampleVS1,
    sampleConv, sampleUC, sampleUnit, ParameterView.empty, Param.has_been_written_to,
    Param.children, Param.dataSeries, Param.data, Param.version,
    TimeseriesConverter.convert_from, TimeseriesConverter.convert, outsideRange,
    convertPoint, interpPoint, interpInner, lerpSeg, UnitConverter.convert_from_list,
    UnitConverter.convert_from, UnitSpec.toBase, UnitSpec.fromBase]

lemma TimeseriesConverter.convert_no_empty_error (c : TimeseriesConverter)
    (values src tgt : List ℚ) :
    c.convert values src tgt ≠ Except.error Err.parameterEmptyError := by
  unfold TimeseriesConverter.convert
  split_ifs <;> simp

lemma TimeseriesView.get_values_no_empty_error {vs : TSViewState} {p : Param}
    (hch : p.children = []) (hw : p.has_been_written_to = true) :
    TimeseriesView.get_values vs p ≠ Except.error Err.parameterEmptyError := by
  unfold TimeseriesView.get_values
  rw [hch]
  simp [ParameterView.empty, hw]
  exact TimeseriesConverter.convert_no_empty_error _ _ _ _

/-- C5: for every view over a childless parameter that has never been
written to, reading its value — through the scalar getter, a fresh
timeseries view, or the generic getter — raises `ParameterEmptyError`;
once any write to the parameter has succeeded the write marker is set,
and reads through views of a written parameter never raise
`ParameterEmptyError` again. -/
theorem c5_empty_reads (p : Param) (hch : p.children = []) :
    (p.has_been_written_to = false →
      (∀ u, ScalarView.value u p = Except.error Err.parameterEmptyError) ∧
      (∀ vs : TSViewState, vs.cacheData = none →
        (TimeseriesView.read p vs).2 = Except.error Err.parameterEmptyError) ∧
      GenericView.value p = Except.error Err.parameterEmptyError) ∧
    (p.has_been_written_to = true →
      (∀ u, ScalarView.value u p ≠ Except.error Err.parameterEmptyError) ∧
      (∀ vs : TSViewState, (TimeseriesView.read p vs).2 ≠ Except.error Err.parameterEmptyError) ∧
      GenericView.value p ≠ Except.error Err.parameterEmptyError) ∧
    (∀ d p', p.setData d = Except.ok p' → p'.has_been_written_to = true) := by
  refine ⟨?_, ?_, ?_⟩
  · intro hw
    have hempty : ParameterView.empty p = true := by simp [ParameterView.empty, hw]
    refine ⟨?_, ?_, ?_⟩
    · intro u
      simp [ScalarView.value, hch, ScalarView.leafValue, hempty]
    · intro vs hc
      have hg : TimeseriesView.get_values vs p = Except.error Err.parameterEmptyError := by
        unfold TimeseriesView.get_values
        rw [hch]
        simp [hempty]
      unfold TimeseriesView.read
      simp [hc, hg]
    · simp [GenericView.value, hempty]
  · intro hw
    have hempty : ParameterView.empty p = false := by simp [ParameterView.empty, hw]
    refine ⟨?_, ?_, ?_⟩
    · intro u
      simp [ScalarView.value, hch, ScalarView.leafValue, hempty]
    · intro vs
      have hg := @TimeseriesView.get_values_no_empty_error vs p hch hw
      unfold TimeseriesView.read
      cases hc : vs.cacheData with
      | none =>
        cases hgv : TimeseriesView.get_values vs p with
        | error e => simp [hc, hgv]; rw [hgv] at hg; simpa using hg
        | ok d => simp [hc, hgv]
      | some c0 =>
        by_cases hv : vs.cachedVersion ≠ p.version
        · cases hgv : TimeseriesView.get_values vs p with
          | error e => simp [hc, hgv, if_pos hv]; rw [hgv] at hg; simpa using hg
          | ok d => simp [hc, hgv, if_pos hv]
        · simp [hc, if_neg hv]
    · simp [GenericView.value, hempty]
  · intro d p' hset
    obtain ⟨-, hp'⟩ := Param.setData_ok hset
    subst hp'
    simp [Param.has_been_written_to]

/-- C5 witness: the never-written sample leaf raises `ParameterEmptyError`
through all three kinds of view; after a successful write the marker is
set and the scalar read returns the stored value instead of failing. -/
theorem c5_witness :
    ScalarView.value sampleUnit sampleLeaf = Except.error Err.parameterEmptyError ∧
    (TimeseriesView.read sampleLeaf (TimeseriesView.initView sampleUC sampleConv)).2 =
      Except.error Err.parameterEmptyError ∧
    GenericView.value sampleLeaf = Except.error Err.parameterEmptyError ∧
    sampleLeafTS.has_been_written_to = true ∧
    ScalarView.value sampleUnit sampleLeafTS ≠ Except.error Err.parameterEmptyError := by
  have h1 := c5_empty_reads sampleLeaf rfl
  have h2 := c5_empty_reads sampleLeafTS rfl
  exact ⟨(h1.1 rfl).1 sampleUnit, (h1.1 rfl).2.1 _ rfl, (h1.1 rfl).2.2, rfl,
    (h2.2.1 rfl).1 sampleUnit⟩

/-- C9: calling the writable timeseries view's values setter with a
sequence whose length differs from the converter's `target_length`
raises `TimeseriesPointsValuesMismatchError` before any mutation: the
parameter's data and version and the view's cached array are exactly as
before the call. -/
theorem c9_length_mismatch_no_mutation (v : List ℚ) (p : Param) (vs : TSViewState)
    (h : v.length ≠ vs.timeseries_converter.target_length) :
    WritableTimeseriesView.setValues v p vs =
      ((p, vs), some Err.timeseriesPointsValuesMismatchError) := by
  unfold WritableTimeseriesView.setValues
  rw [if_pos h]

/-- C9 witness: assigning a length-2 array where the target length is 3
fails with the mismatch error and leaves parameter and view untouched. -/
theorem c9_witness :
    ([1, 2] : List ℚ).length ≠ sampleConv.target_length ∧
    WritableTimeseriesView.setValues [1, 2] sampleLeafTS sampleVS1 =
      ((sampleLeafTS, sampleVS1), some Err.timeseriesPointsValuesMismatchError) :=
  ⟨by decide, c9_length_mismatch_no_mutation [1, 2] sampleLeafTS sampleVS1 (by decide)⟩

/-- C10: item assignment through the timeseries object returned by a
read-only view's values property mutates the view's local cached array
first and then raises `NotImplementedError` from the read-only write-back
hook, leaving the underlying parameter's stored data and version
untouched. -/
theorem c10_readonly_setitem (i : ℕ) (x : ℚ) (p : Param) (vs : TSViewState)
    (c : List ℚ) (hc : vs.cacheData = some c) :
    TimeseriesView.setItem i x p vs =
      ((p, { vs with cacheData := some (c.set i x) }), some Err.notImplementedError) := by
  unfold TimeseriesView.setItem
  simp only [hc]

/-- C10 witness: setting index 1 of the cached array `[1, 2, 3]` to 99
through a read-only view raises `NotImplementedError`, mutates only the
cache, and leaves the parameter as it was. -/
theorem c10_witness :
    TimeseriesView.setItem 1 99 sampleLeafTS sampleVS1 =
      ((sampleLeafTS, ⟨sampleUC, sampleConv, some [1, 99, 3], 1⟩),
        some Err.notImplementedError) :=
  c10_readonly_setitem 1 99 sampleLeafTS sampleVS1 [1, 2, 3] rfl

/-- C7: assigning a values sequence through a writable timeseries view
raises `TimeseriesPointsValuesMismatchError` whenever its length differs
from the converter's `target_length`; with matching length (over a leaf
parameter, and with the write-back conversion succeeding) the assignment
stores the raw values in the view, writes the unit- and time-converted
array back into the parameter, and bumps the parameter's version. -/
theorem c7_writable_ts_setter (v : List ℚ) (p : Param) (vs : TSViewState) :
    (v.length ≠ vs.timeseries_converter.target_length →
      WritableTimeseriesView.setValues v p vs =
        ((p, vs), some Err.timeseriesPointsValuesMismatchError)) ∧
    (v.length = vs.timeseries_converter.target_length → p.children = [] →
      ∀ w, vs.timeseries_converter.convert_to (vs.unit_converter.convert_to_list v) =
          Except.ok w →
        WritableTimeseriesView.setValues v p vs =
          ((Param.mk p.unit p.time_points (some (PData.timeseries w)) true (p.version + 2)
              p.children,
            { vs with cacheData := some v, cachedVersion := p.version + 2 }), none)) := by
  constructor
  · intro hlen
    unfold WritableTimeseriesView.setValues
    rw [if_pos hlen]
  · intro hlen hch w hw
    unfold WritableTimeseriesView.setValues WritableTimeseriesView.write
    rw [if_neg (by simp [hlen])]
    simp only [Option.getD_some, hw, Param.setData_of_leaf hch]
    simp [Param.withVersion, Param.version, Param.unit, Param.time_points, Param.children]

/-- C7 witness: a length-2 assignment against target length 3 fails with
the mismatch error, while the length-3 assignment `[7, 8, 9]` stores the
values, writes the converted array into the parameter and bumps the
version from 0 to 2. -/
theorem c7_witness :
    (WritableTimeseriesView.setValues [1, 2] sampleLeaf
        (TimeseriesView.initView sampleUC sampleConv) =
      ((sampleLeaf, TimeseriesView.initView sampleUC sampleConv),
        some Err.timeseriesPointsValuesMismatchError)) ∧
    (WritableTimeseriesView.setValues [7, 8, 9] sampleLeaf
        (TimeseriesView.initView sampleUC sampleConv) =
      ((Param.mk sampleUnit [0, 1, 2] (some (PData.timeseries [7, 8, 9])) true 2 [],
        ⟨sampleUC, sampleConv, some [7, 8, 9], 2⟩), none)) := by
  have hconv : sampleConv.convert_to (sampleUC.convert_to_list [7, 8, 9]) =
      Except.ok [7, 8, 9] := by
    norm_num [TimeseriesConverter.convert_to, TimeseriesConverter.convert, sampleConv,
      sampleUC, sampleUnit, outsideRange, convertPoint, interpPoint, interpInner, lerpSeg,
      UnitConverter.convert_to_list, UnitConverter.convert_to, UnitSpec.toBase,
      UnitSpec.fromBase]
  constructor
  · exact (c7_writable_ts_setter [1, 2] sampleLeaf
      (TimeseriesView.initView sampleUC sampleConv)).1 (by decide)
  · exact (c7_writable_ts_setter [7, 8, 9] sampleLeaf
      (TimeseriesView.initView sampleUC sampleConv)).2 (by decide) rfl [7, 8, 9] hconv

/-- Writing a scalar through a writable view over the node at `path`
inside a parameter tree (the view converts into that node's native unit
and assigns the node's data). -/
def WritableScalarView.setValueAt (target : UnitSpec) (v : ℚ) (path : List ℕ)
    (root : Param) : Except Err Param :=
  Param.writeAt (WritableScalarView.setValue target v) path root

/-- Reading a scalar view over the node at `path` inside a parameter
tree. -/
def ScalarView.valueAt (target : UnitSpec) (path : List ℕ) (root : Param) : Except Err ℚ :=
  match Param.nodeAt path root with
  | some n => ScalarView.value target n
  | none => Except.error Err.valueError

lemma mapM_ok_of_forall {α β : Type} {f : α → Except Err β} {g : α → β} :
    ∀ xs : List α, (∀ x ∈ xs, f x = Except.ok (g x)) → xs.mapM f = Except.ok (xs.map g) := by
  intro xs
  induction xs with
  | nil => intro _; rfl
  | cons x xs ih =>
    intro h
    rw [List.mapM_cons, h x (by simp)]
    have := ih (fun y hy => h y (by simp [hy]))
    rw [List.map_cons]
    simp only [this]
    rfl

lemma except_ok_bind {α β : Type} (a : α) (f : α → Except Err β) :
    (Except.ok a : Except Err α) >>= f = f a := rfl

/-- Never-written leaf with native unit `u` used by the aggregation
scenario. -/
def c3leaf (u : UnitSpec) : Param := Param.mk u [] none false 0 []

/-- The `(Top, a, 1) (Top, a, 2) (Top, b)` tree of the aggregation
scenario, every node in unit `u` and nothing written yet. -/
def c3tree (u : UnitSpec) : Param :=
  Param.mk u [] none false 0
    [Param.mk u [] none false 0 [c3leaf u, c3leaf u], c3leaf u]

lemma ScalarView.value_aggregate (u : UnitSpec) (p : Param) (hch : p.children ≠ [])
    (hw : ∀ l ∈ p.leaves, l.has_been_written_to = true) :
    ScalarView.value u p =
      Except.ok ((p.leaves.map
        (fun l => (UnitConverter.mk l.unit u).convert_from l.dataScalar)).sum) := by
  unfold ScalarView.value
  rw [if_neg (by simp [List.isEmpty_iff, hch])]
  have hm : p.leaves.mapM (ScalarView.leafValue u) =
      Except.ok (p.leaves.map
        (fun l => (UnitConverter.mk l.unit u).convert_from l.dataScalar)) := by
    apply mapM_ok_of_forall
    intro l hl
    unfold ScalarView.leafValue
    rw [if_neg (by simp [ParameterView.empty, hw l hl])]
  rw [hm]
  rfl

/-- C3: reading a scalar view over a node with children returns the sum of
the unit-converted values of its leaf descendants (depth-first, leaves
only); concretely, writing `a1, a2, b` in a common unit to the leaves
`(Top, a, 1)`, `(Top, a, 2)`, `(Top, b)` and then reading `(Top, a)`
yields `a1 + a2` while reading `(Top)` yields `a1 + a2 + b`. -/
theorem c3_scalar_aggregation :
    (∀ (u : UnitSpec) (p : Param), p.children ≠ [] →
      (∀ l ∈ p.leaves, l.has_been_written_to = true) →
      ScalarView.value u p =
        Except.ok ((p.leaves.map
          (fun l => (UnitConverter.mk l.unit u).convert_from l.dataScalar)).sum)) ∧
    (∀ (u : UnitSpec) (a1 a2 b : ℚ), u.scale ≠ 0 →
      ∀ t3, ((WritableScalarView.setValueAt u a1 [0, 0] (c3tree u)).bind
          (fun t => WritableScalarView.setValueAt u a2 [0, 1] t)).bind
          (fun t => WritableScalarView.setValueAt u b [1] t) = Except.ok t3 →
        ScalarView.valueAt u [0] t3 = Except.ok (a1 + a2) ∧
        ScalarView.value u t3 = Except.ok (a1 + a2 + b)) := by
  constructor
  · exact ScalarView.value_aggregate
  · intro u a1 a2 b hscale t3 hchain
    have hcv : ∀ x : ℚ, (UnitConverter.mk u u).convert_from
        ((UnitConverter.mk u u).convert_to x) = x := by
      intro x
      unfold UnitConverter.convert_from UnitConverter.convert_to
        UnitSpec.toBase UnitSpec.fromBase
      field_simp
    have hc : ((WritableScalarView.setValueAt u a1 [0, 0] (c3tree u)).bind
        (fun t => WritableScalarView.setValueAt u a2 [0, 1] t)).bind
        (fun t => WritableScalarView.setValueAt u b [1] t) =
        Except.ok (Param.mk u [] none false 3
          [Param.mk u [] none false 2
            [Param.mk u [] (some (PData.scalar ((UnitConverter.mk u u).convert_to a1)))
              true 1 [],
             Param.mk u [] (some (PData.scalar ((UnitConverter.mk u u).convert_to a2)))
              true 1 []],
           Param.mk u [] (some (PData.scalar ((UnitConverter.mk u u).convert_to b)))
            true 1 []]) := by
      simp [WritableScalarView.setValueAt, Param.writeAt, WritableScalarView.setValue,
        Param.setData, Param.unit, c3tree, c3leaf, Except.bind, Except.map]
    rw [hc] at hchain
    simp only [Except.ok.injEq] at hchain
    subst hchain
    constructor
    · simp [ScalarView.valueAt, Param.nodeAt, Param.children, ScalarView.value,
        Param.leaves, ScalarView.leafValue, ParameterView.empty,
        Param.has_been_written_to, Param.dataScalar, Param.data, Param.unit, hcv,
        List.mapM.loop, Except.bind, Except.map, Except.pure, except_ok_bind]
    · simp [ScalarView.value, Param.children, Param.leaves, ScalarView.leafValue,
        ParameterView.empty, Param.has_been_written_to, Param.dataScalar, Param.data,
        Param.unit, hcv, List.mapM.loop, Except.bind, Except.map, Except.pure,
        except_ok_bind]
      ring

/-- C3 witness: writing 6, 3 and 1 to the three leaves in the identity
unit, reading `(Top, a)` gives 9 and reading `(Top)` gives 10. -/
theorem c3_witness :
    sampleUnit.scale ≠ 0 ∧
    ∃ t3, ((WritableScalarView.setValueAt sampleUnit 6 [0, 0] (c3tree sampleUnit)).bind
        (fun t => WritableScalarView.setValueAt sampleUnit 3 [0, 1] t)).bind
        (fun t => WritableScalarView.setValueAt sampleUnit 1 [1] t) = Except.ok t3 ∧
      ScalarView.valueAt sampleUnit [0] t3 = Except.ok 9 ∧
      ScalarView.value sampleUnit t3 = Except.ok 10 := by
  have hchain : ((WritableScalarView.setValueAt sampleUnit 6 [0, 0] (c3tree sampleUnit)).bind
      (fun t => WritableScalarView.setValueAt sampleUnit 3 [0, 1] t)).bind
      (fun t => WritableScalarView.setValueAt sampleUnit 1 [1] t) =
      Except.ok (Param.mk sampleUnit [] none false 3
        [Param.mk sampleUnit [] none false 2
          [Param.mk sampleUnit []
            (some (PData.scalar ((UnitConverter.mk sampleUnit sampleUnit).convert_to 6)))
            true 1 [],
           Param.mk sampleUnit []
            (some (PData.scalar ((UnitConverter.mk sampleUnit sampleUnit).convert_to 3)))
            true 1 []],
         Param.mk sampleUnit []
          (some (PData.scalar ((UnitConverter.mk sampleUnit sampleUnit).convert_to 1)))
          true 1 []]) := by
    simp [WritableScalarView.setValueAt, Param.writeAt, WritableScalarView.setValue,
      Param.setData, Param.unit, c3tree, c3leaf, Except.bind, Except.map]
  have h := c3_scalar_aggregation.2 sampleUnit 6 3 1 (by norm_num [sampleUnit]) _ hchain
  refine ⟨by norm_num [sampleUnit], _, hchain, ?_, ?_⟩
  · rw [h.1]; norm_num
  · rw [h.2]; norm_num

/-- C8: a view's `empty` property is the negation of the underlying
node's own `has_been_written_to` flag, independent of any child's state;
a successful write below a node (non-empty path) leaves the node's own
flag — and hence `empty` — unchanged, so an aggregate node with children
stays `empty` even once every leaf descendant has been written, while
the aggregated scalar read nevertheless succeeds. -/
theorem c8_empty_uses_own_flag :
    (∀ p : Param, ParameterView.empty p = !p.has_been_written_to) ∧
    (∀ (f : Param → Except Err Param) (i : ℕ) (path : List ℕ) (p p' : Param),
      Param.writeAt f (i :: path) p = Except.ok p' →
      ParameterView.empty p' = ParameterView.empty p) ∧
    (∀ (u : UnitSpec) (p : Param), p.children ≠ [] →
      (∀ l ∈ p.leaves, l.has_been_written_to = true) →
      p.has_been_written_to = false →
      ParameterView.empty p = true ∧ ∃ q, ScalarView.value u p = Except.ok q) := by
  refine ⟨fun p => rfl, ?_, ?_⟩
  · intro f i path p p' h
    cases p with
    | mk u tp d w ver cs =>
      unfold Param.writeAt at h
      cases hg : cs.get? i with
      | none => simp only [hg] at h; exact Except.noConfusion h
      | some c =>
        simp only [hg] at h
        cases hrec : Param.writeAt f path c with
        | error e => rw [hrec] at h; simp [Except.map] at h
        | ok c' =>
          rw [hrec] at h
          simp only [Except.map, Except.ok.injEq] at h
          subst h
          simp [ParameterView.empty, Param.has_been_written_to]
  · intro u p hch hw hflag
    refine ⟨by simp [ParameterView.empty, hflag], _, ScalarView.value_aggregate u p hch hw⟩

/-- The sample tree after its three leaves were written with 6, 3 and 1
in the identity unit. -/
def c3treeWritten : Param :=
  Param.mk sampleUnit [] none false 3
    [Param.mk sampleUnit [] none false 2
      [Param.mk sampleUnit [] (some (PData.scalar 6)) true 1 [],
       Param.mk sampleUnit [] (some (PData.scalar 3)) true 1 []],
     Param.mk sampleUnit [] (some (PData.scalar 1)) true 1 []]

/-- C8 witness: after writing all three leaves of the sample tree, the
root keeps `has_been_written_to = false`, its view reads as empty, and
the aggregated value is still readable. -/
theorem c8_witness :
    ((WritableScalarView.setValueAt sampleUnit 6 [0, 0] (c3tree sampleUnit)).bind
        (fun t => WritableScalarView.setValueAt sampleUnit 3 [0, 1] t)).bind
        (fun t => WritableScalarView.setValueAt sampleUnit 1 [1] t) =
      Except.ok c3treeWritten ∧
    ParameterView.empty c3treeWritten = true ∧
    c3treeWritten.has_been_written_to = false ∧
    (∃ q, ScalarView.value sampleUnit c3treeWritten = Except.ok q) ∧
    ParameterView.empty c3treeWritten = !c3treeWritten.has_been_written_to := by
  have hchain : ((WritableScalarView.setValueAt sampleUnit 6 [0, 0] (c3tree sampleUnit)).bind
      (fun t => WritableScalarView.setValueAt sampleUnit 3 [0, 1] t)).bind
      (fun t => WritableScalarView.setValueAt sampleUnit 1 [1] t) =
      Except.ok c3treeWritten := by
    norm_num [WritableScalarView.setValueAt, Param.writeAt, WritableScalarView.setValue,
      Param.setData, Param.unit, c3tree, c3leaf, c3treeWritten, Except.bind, Except.map,
      UnitConverter.convert_to, UnitSpec.toBase, UnitSpec.fromBase, sampleUnit]
  have hleaves : ∀ l ∈ c3treeWritten.leaves, l.has_been_written_to = true := by
    intro l hl
    simp [c3treeWritten, Param.leaves] at hl
    rcases hl with h | h | h <;> subst h <;> rfl
  exact ⟨hchain, rfl, rfl,
    (c8_empty_uses_own_flag.2.2 sampleUnit c3treeWritten (by simp [c3treeWritten,
      Param.children]) hleaves rfl).2,
    c8_empty_uses_own_flag.1 c3treeWritten⟩

/-- A point-convention converter whose source grid has exactly 2 points —
the minimum the claim says suffices for a point series. -/
def c6conv : TimeseriesConverter :=
  ⟨[0, 1], [0, 1], ParameterType.pointTimeseries, InterpolationType.linear,
    ExtrapolationType.constant⟩

/-- C6 counterexample: a point-type conversion from a 2-point source array
(target grid inside the source span, CONSTANT extrapolation, so no
extrapolation failure is possible) still raises `InsufficientDataError`,
contradicting the claim that 2 points suffice for a point series — the
repository's own `test_short_data` expects the error for arrays of
length 2 of either series type. -/
theorem c6_counterexample :
    c6conv.timeseries_type = ParameterType.pointTimeseries ∧
    c6conv.extrapolation_type ≠ ExtrapolationType.none ∧
    ([5, 6] : List ℚ).length = 2 ∧
    c6conv.convert_from [5, 6] = Except.error Err.insufficientDataError := by
  refine ⟨rfl, by decide, rfl, ?_⟩
  unfold TimeseriesConverter.convert_from TimeseriesConverter.convert
  rw [if_pos (by decide)]

/-- C6 (amended): `convert_from` raises `InsufficientDataError` for lack
of source data exactly when the source values array has fewer than 3
elements, for point and average series alike (the threshold the
repository's `test_short_data` pins down); with at least 3 values, and
the extrapolation-related failure excluded (extrapolation not NONE or
target inside the source span), the conversion succeeds. -/
theorem c6_short_data_amended (c : TimeseriesConverter) (values : List ℚ) :
    (values.length < 3 → c.convert_from values = Except.error Err.insufficientDataError) ∧
    (3 ≤ values.length →
      (c.extrapolation_type = ExtrapolationType.none →
        outsideRange c.source c.target = false) →
      ∃ out, c.convert_from values = Except.ok out) := by
  constructor
  · intro h
    unfold TimeseriesConverter.convert_from TimeseriesConverter.convert
    rw [if_pos h]
  · intro h hext
    unfold TimeseriesConverter.convert_from TimeseriesConverter.convert
    rw [if_neg (by omega)]
    rw [if_neg (fun hand => by
      have h2 := hext hand.1
      rw [h2] at hand
      exact absurd hand.2 (by simp))]
    exact ⟨_, rfl⟩

/-- C6 witness: a 2-element array fails with `InsufficientDataError`
while a 3-element array on the sample converter succeeds. -/
theorem c6_witness :
    c6conv.convert_from [9, 9] = Except.error Err.insufficientDataError ∧
    ∃ out, sampleConv.convert_from [5, 6, 7] = Except.ok out :=
  ⟨(c6_short_data_amended c6conv [9, 9]).1 (by decide),
   (c6_short_data_amended sampleConv [5, 6, 7]).2 (by decide) (by decide)⟩
